import Mathlib

/-!
Verification of the Subtitle-Generation repository's core components against
its specification: the timecode codec (src/utils/timecode.py), the SRT writer
(src/utils/io_utils.py), the work-directory manager (src/utils/paths.py), the
configuration validator (src/utils/config.py) and the orchestrator's stage
gating (src/pipeline/run.py).

Python `float` values are modelled as rationals (ℚ); Python `int` as ℤ/ℕ.
Python strings are Lean `String`s; the string-scanning library calls
(`str.split`, `str.strip`, `int(...)`, f-string formatting with `:02d` pads)
are embedded as explicit functions over `List Char` below, each mirroring the
CPython behaviour on the character sets these files produce (ASCII digits and
punctuation).
-/

namespace SubGen

/-! ## Python primitives -/

/-- Python `round()` (round half to even) on a rational, as used by
`seconds_to_srt_time` in src/utils/timecode.py line 7. -/
def pyRound (q : ℚ) : ℤ :=
  let f : ℤ := ⌊q⌋
  let frac : ℚ := q - f
  if frac < 1/2 then f
  else if 1/2 < frac then f + 1
  else if f % 2 = 0 then f else f + 1

/-- Fuel-driven decimal printer (structural recursion so that the kernel can
evaluate it); `natToChars` supplies sufficient fuel. -/
def natToCharsGo : ℕ → ℕ → List Char
  | 0, _ => []
  | fuel + 1, n =>
    if n < 10 then [Char.ofNat (48 + n)]
    else natToCharsGo fuel (n / 10) ++ [Char.ofNat (48 + n % 10)]

/-- Decimal digits of a natural number, most significant first: the model of
Python `str(n)` / `f"{n:d}"` for a non-negative int. -/
def natToChars (n : ℕ) : List Char := natToCharsGo (n + 1) n

/-- Python `str(n)` for a natural number. -/
def natStr (n : ℕ) : String := String.mk (natToChars n)

/-- Python f-string zero padding `f"{n:0wd}"` for a non-negative int:
left-pad the decimal digits with `'0'` up to width `w`. -/
def pyPad (w : ℕ) (n : ℕ) : List Char :=
  List.replicate (w - (natToChars n).length) '0' ++ natToChars n

/-- Value of one ASCII decimal digit character, `none` otherwise. -/
def charDigit? (c : Char) : Option ℕ :=
  if '0' ≤ c ∧ c ≤ '9' then some (c.toNat - 48) else none

/-- Accumulating decimal scan over characters; fails on a non-digit. -/
def parseDigitsAux : ℕ → List Char → Option ℕ
  | acc, [] => some acc
  | acc, c :: cs =>
    match charDigit? c with
    | some d => parseDigitsAux (10 * acc + d) cs
    | none => none

/-- Python `int(s)` on the digit strings this repository's formats contain:
all characters must be decimal digits and the string non-empty. -/
def parseNatChars (l : List Char) : Option ℕ :=
  match l with
  | [] => none
  | _ :: _ => parseDigitsAux 0 l

/-- Python `s.split(sep, 1)` step: split off everything before the first
occurrence of `sep`; `none` when `sep` does not occur. -/
def splitOnceChar (sep : Char) : List Char → Option (List Char × List Char)
  | [] => none
  | c :: cs =>
    if c = sep then some ([], cs)
    else (splitOnceChar sep cs).map (fun p => (c :: p.1, p.2))

/-- Python `s.split(sep)` (no maxsplit) on a single-character separator. -/
def splitAllChar (sep : Char) : List Char → List (List Char)
  | [] => [[]]
  | c :: cs =>
    let r := splitAllChar sep cs
    if c = sep then [] :: r
    else
      match r with
      | [] => [[c]]
      | x :: xs => (c :: x) :: xs

/-- Python `s.strip()` on the ASCII whitespace these files can contain. -/
def pyStrip (l : List Char) : List Char :=
  ((l.dropWhile Char.isWhitespace).reverse.dropWhile Char.isWhitespace).reverse

/-- Python `s.strip()` as a String → String function. -/
def pyStripStr (s : String) : String := String.mk (pyStrip s.data)

/-! ## Timecode codec (src/utils/timecode.py) -/

/-- The characters of `f"{hours:02d}:{minutes:02d}:{secs:02d},{millis:03d}"`
(src/utils/timecode.py line 14). -/
def formatSrtFields (hours minutes secs millis : ℕ) : List Char :=
  pyPad 2 hours ++ ':' :: (pyPad 2 minutes ++ ':' :: (pyPad 2 secs ++ ',' :: pyPad 3 millis))

/-- `seconds_to_srt_time` (src/utils/timecode.py lines 4-14): clamp negative
input to 0, round to integer milliseconds, then decompose by successive
division exactly as the source does. `pyRound` of the clamped value is
non-negative, so Python's int arithmetic is ℕ arithmetic here. -/
def seconds_to_srt_time (seconds : ℚ) : String :=
  let s := if seconds < 0 then 0 else seconds
  let total_milliseconds := (pyRound (s * 1000)).toNat
  let hours := total_milliseconds / 3600000
  let remainder := total_milliseconds % 3600000
  let minutes := remainder / 60000
  let remainder2 := remainder % 60000
  let secs := remainder2 / 1000
  let millis := remainder2 % 1000
  String.mk (formatSrtFields hours minutes secs millis)

/-- `srt_time_to_seconds` (src/utils/timecode.py lines 17-21):
`hh, mm, rest = time_str.split(":", 2)`, `ss, ms = rest.split(",")`, then
`int(hh)*3600 + int(mm)*60 + int(ss) + int(ms)/1000.0`. A failed tuple
unpacking or `int()` call raises in Python; embedded as `none`. -/
def srt_time_to_seconds (time_str : String) : Option ℚ :=
  match splitOnceChar ':' time_str.data with
  | none => none
  | some (hh, r1) =>
    match splitOnceChar ':' r1 with
    | none => none
    | some (mm, rest) =>
      match splitAllChar ',' rest with
      | [ss, ms] =>
        match parseNatChars hh, parseNatChars mm, parseNatChars ss, parseNatChars ms with
        | some h, some m, some s, some k =>
          some ((h : ℚ) * 3600 + (m : ℚ) * 60 + (s : ℚ) + (k : ℚ) / 1000)
        | _, _, _, _ => none
      | _ => none

/-- `srt_time_to_ass_time` (src/utils/timecode.py lines 24-39): strip, parse
as `HH:MM:SS,mmm`, truncate milliseconds to centiseconds with `// 10`, and
render `f"{hours}:{minutes:02d}:{seconds:02d}.{centiseconds:02d}"`. -/
def srt_time_to_ass_time (srt_time : String) : Option String :=
  let l := pyStrip srt_time.data
  match splitOnceChar ':' l with
  | none => none
  | some (hh, r1) =>
    match splitOnceChar ':' r1 with
    | none => none
    | some (mm, rest) =>
      match splitAllChar ',' rest with
      | [ss, ms] =>
        match parseNatChars hh, parseNatChars mm, parseNatChars ss, parseNatChars ms with
        | some hours, some minutes, some secs, some msv =>
          some (String.mk
            (natToChars hours ++ ':' :: (pyPad 2 minutes ++ ':' :: (pyPad 2 secs ++ '.' :: pyPad 2 (msv / 10)))))
        | _, _, _, _ => none
      | _ => none

/-! ## Segment store (src/utils/io_utils.py) -/

/-- One element of the `segments` list handed to `write_srt`: a Python dict
whose `"start"`, `"end"` and `"text"` keys may each be absent (`none`).
`stop?` embeds the `"end"` key (`end` is a Lean keyword). -/
structure SegDict where
  start? : Option ℚ
  stop? : Option ℚ
  text? : Option String
deriving DecidableEq, Repr

/-- `float(seg.get("start", 0))` (src/utils/io_utils.py line 29). -/
def segStart (seg : SegDict) : ℚ := seg.start?.getD 0

/-- `float(seg.get("end", start))` (src/utils/io_utils.py line 30). -/
def segStop (seg : SegDict) : ℚ := seg.stop?.getD (segStart seg)

/-- `str(seg.get("text", "")).strip()` (src/utils/io_utils.py line 31). -/
def segText (seg : SegDict) : String := pyStripStr (seg.text?.getD "")

/-- The four lines one loop iteration of `write_srt` appends for segment
`seg` at 1-based index `idx` (src/utils/io_utils.py lines 32-35). -/
def srtSegLines (idx : ℕ) (seg : SegDict) : List String :=
  [natStr idx,
   seconds_to_srt_time (segStart seg) ++ " --> " ++ seconds_to_srt_time (segStop seg),
   segText seg,
   ""]

/-- The `lines` list built by `write_srt`'s `for idx, seg in
enumerate(segments, start=1)` loop, started at index `idx`. -/
def srtLinesFrom (idx : ℕ) : List SegDict → List String
  | [] => []
  | seg :: rest => srtSegLines idx seg ++ srtLinesFrom (idx + 1) rest

/-- The full text `write_srt` passes to `write_text`:
`"\n".join(lines)` over the loop's lines (src/utils/io_utils.py line 36). -/
def write_srt_content (segments : List SegDict) : String :=
  String.intercalate "\n" (srtLinesFrom 1 segments)

/-! ## Work directory manager (src/utils/paths.py) -/

/-- `WorkDirs` (src/utils/paths.py lines 15-22). Its fields are exactly
root, video, audio, transcripts, enhanced and subtitled — there is no
translated (nor separated) directory. -/
structure WorkDirs where
  root : String
  video_dir : String
  audio_dir : String
  transcripts_dir : String
  enhanced_dir : String
  subtitled_dir : String
deriving DecidableEq, Repr

/-- The file-system state the directory manager mutates: which paths exist
as directories and which as non-directories. -/
structure FS where
  dirs : List String
  files : List String
deriving DecidableEq, Repr

/-- `os.path.join(a, b)` for a relative second component. -/
def joinPath (a b : String) : String := a ++ "/" ++ b

/-- `os.makedirs(path, exist_ok=True)`: succeeds (without change) when the
path already is a directory, fails when it exists as a non-directory,
creates it otherwise. -/
def makedirs (fs : FS) (p : String) : Except String FS :=
  if p ∈ fs.files then Except.error ("FileExistsError: " ++ p)
  else if p ∈ fs.dirs then Except.ok fs
  else Except.ok { fs with dirs := fs.dirs ++ [p] }

/-- The `for path in [...]: os.makedirs(path, exist_ok=True)` loop of
`ensure_workdirs` (src/utils/paths.py lines 33-34). -/
def makedirsAll (fs : FS) : List String → Except String FS
  | [] => Except.ok fs
  | p :: ps =>
    match makedirs fs p with
    | Except.ok fs1 => makedirsAll fs1 ps
    | Except.error e => Except.error e

/-- The list of paths `ensure_workdirs` creates, in source order. -/
def workdirPaths (outputsRoot video_id : String) : List String :=
  let root := joinPath outputsRoot video_id
  [root, joinPath root "video", joinPath root "audio", joinPath root "transcripts",
   joinPath root "enhanced", joinPath root "subtitled"]

/-- `ensure_workdirs` (src/utils/paths.py lines 25-43), with the module-level
`DEFAULT_OUTPUTS_ROOT` passed explicitly. It creates root plus the video,
audio, transcripts, enhanced and subtitled subdirectories and returns the
`WorkDirs` record of their paths. -/
def ensure_workdirs (outputsRoot : String) (fs : FS) (video_id : String) :
    Except String (FS × WorkDirs) :=
  let root := joinPath outputsRoot video_id
  match makedirsAll fs (workdirPaths outputsRoot video_id) with
  | Except.error e => Except.error e
  | Except.ok fs1 =>
    Except.ok (fs1,
      { root := root
        video_dir := joinPath root "video"
        audio_dir := joinPath root "audio"
        transcripts_dir := joinPath root "transcripts"
        enhanced_dir := joinPath root "enhanced"
        subtitled_dir := joinPath root "subtitled" })

/-! ## Configuration validation (src/utils/config.py) -/

/-- The validation part of `Config.__post_init__` (src/utils/config.py lines
143-153), checking the ASR backend, the subtitle mode and the box opacity in
source order; a failed check raises `ValueError` with the source's message
(embedded as `Except.error`; ℚ's printer stands in for Python's float repr
in the opacity message, the rest is verbatim). -/
def configPostInitValidate (asr_backend : String) (subtitle_mode : String)
    (box_opacity : ℚ) : Except String Unit :=
  if ¬ (asr_backend = "local" ∨ asr_backend = "groq") then
    Except.error ("Invalid ASR backend: " ++ asr_backend ++ ". Must be 'local' or 'groq'")
  else if ¬ (subtitle_mode = "soft" ∨ subtitle_mode = "burn") then
    Except.error ("Invalid subtitle mode: " ++ subtitle_mode ++ ". Must be 'soft' or 'burn'")
  else if ¬ (0 ≤ box_opacity ∧ box_opacity ≤ 1) then
    Except.error ("Box opacity must be between 0.0 and 1.0, got: " ++ toString box_opacity)
  else Except.ok ()

/-! ## Orchestrator stage gating (src/pipeline/run.py) -/

/-- Outcome of step 5 of `run_pipeline_with_config` (src/pipeline/run.py
lines 184-250): whether the translate branch was entered, whether the
Groq translation backend was invoked, whether a warning was logged, and
which segments `final_segments` holds for subtitle rendering. -/
structure TranslateStageResult (α : Type) where
  branchEntered : Bool
  backendInvoked : Bool
  warned : Bool
  finalSegments : List α
deriving Repr

/-- Stage-selection logic for translation in `run_pipeline_with_config`
(src/pipeline/run.py lines 190-250): the `if/elif/elif/else` chain on
`config.llm.translator.enabled` and `config.llm.translator.target_language`
(Python truthiness of a string is non-emptiness), with the inner
`config.llm.backend == "groq"` check of the translate branch. `translateFn`
is the translation backend `translate_with_groq`. -/
def translationStage {α : Type} (enabled : Bool) (target_language : String)
    (llm_backend : String) (translateFn : List α → String → List α)
    (segments_for_next_step : List α) : TranslateStageResult α :=
  if enabled = true ∧ target_language = "" then
    { branchEntered := false, backendInvoked := false, warned := true
      finalSegments := segments_for_next_step }
  else if enabled = false ∧ target_language ≠ "" then
    { branchEntered := false, backendInvoked := false, warned := true
      finalSegments := segments_for_next_step }
  else if enabled = true ∧ target_language ≠ "" then
    if llm_backend = "groq" then
      { branchEntered := true, backendInvoked := true, warned := false
        finalSegments := translateFn segments_for_next_step target_language }
    else
      { branchEntered := true, backendInvoked := false, warned := true
        finalSegments := segments_for_next_step }
  else
    { branchEntered := false, backendInvoked := false, warned := false
      finalSegments := segments_for_next_step }

/-! ## AudioConfig attributes (src/utils/config.py vs src/pipeline/run.py) -/

/-- The attribute names a `dataclass AudioConfig` instance has, exactly the
fields declared in src/utils/config.py lines 68-72. -/
def audioConfigAttrs : List String := ["sample_rate", "mono"]

/-- Python attribute lookup on an `AudioConfig` instance: `AttributeError`
for any name outside the declared fields. `run_pipeline_with_config`
evaluates `config.processing.audio.separation.enabled` (src/pipeline/run.py
line 77) outside any try/except. -/
def audioConfigGetattr (name : String) : Except String Unit :=
  if name ∈ audioConfigAttrs then Except.ok ()
  else Except.error ("AttributeError: " ++ name)

/-! ## Helper lemmas: digits, decimal printing and parsing -/

lemma digitChar_spec (d : Fin 10) :
    charDigit? (Char.ofNat (48 + d.val)) = some d.val ∧
    Char.ofNat (48 + d.val) ≠ ':' ∧ Char.ofNat (48 + d.val) ≠ ',' ∧
    (Char.ofNat (48 + d.val)).isWhitespace = false := by
  revert d; decide

lemma natToCharsGo_fuel (f1 : ℕ) : ∀ f2 n, n < f1 → n < f2 →
    natToCharsGo f1 n = natToCharsGo f2 n := by
  induction f1 with
  | zero => intro f2 n h1 _; omega
  | succ f ih =>
    intro f2 n h1 h2
    cases f2 with
    | zero => omega
    | succ g =>
      simp only [natToCharsGo]
      by_cases hn : n < 10
      · simp [hn]
      · have hd : n / 10 < n := Nat.div_lt_self (by omega) (by omega)
        simp only [hn, if_false]
        rw [ih g (n / 10) (by omega) (by omega)]

lemma natToChars_eq (n : ℕ) :
    natToChars n = if n < 10 then [Char.ofNat (48 + n)]
      else natToChars (n / 10) ++ [Char.ofNat (48 + n % 10)] := by
  show natToCharsGo (n + 1) n = _
  simp only [natToCharsGo]
  by_cases hn : n < 10
  · simp [hn]
  · have hd : n / 10 < n := Nat.div_lt_self (by omega) (by omega)
    simp only [hn, if_false]
    rw [natToCharsGo_fuel n (n / 10 + 1) (n / 10) (by omega) (by omega)]
    rfl

lemma natToCharsGo_ne_nil (fuel : ℕ) : ∀ n, n < fuel → natToCharsGo fuel n ≠ [] := by
  induction fuel with
  | zero => intro n h; omega
  | succ f _ =>
    intro n _
    simp only [natToCharsGo]
    by_cases hn : n < 10 <;> simp [hn]

lemma natToChars_ne_nil (n : ℕ) : natToChars n ≠ [] :=
  natToCharsGo_ne_nil (n + 1) n (by omega)

lemma mem_natToCharsGo (fuel : ℕ) : ∀ n c, n < fuel → c ∈ natToCharsGo fuel n →
    ∃ d : Fin 10, c = Char.ofNat (48 + d.val) := by
  induction fuel with
  | zero => intro n c h; omega
  | succ f ih =>
    intro n c hn hc
    simp only [natToCharsGo] at hc
    by_cases h10 : n < 10
    · simp only [h10, if_true, List.mem_singleton] at hc
      exact ⟨⟨n, h10⟩, hc⟩
    · have hd : n / 10 < n := Nat.div_lt_self (by omega) (by omega)
      simp only [h10, if_false, List.mem_append, List.mem_singleton] at hc
      rcases hc with hc | hc
      · exact ih (n / 10) c (by omega) hc
      · exact ⟨⟨n % 10, Nat.mod_lt n (by omega)⟩, hc⟩

lemma mem_natToChars {n : ℕ} {c : Char} (h : c ∈ natToChars n) :
    ∃ d : Fin 10, c = Char.ofNat (48 + d.val) :=
  mem_natToCharsGo (n + 1) n c (by omega) h

lemma parseDigitsAux_append (l1 l2 : List Char) (acc : ℕ) :
    parseDigitsAux acc (l1 ++ l2) =
      match parseDigitsAux acc l1 with
      | some a => parseDigitsAux a l2
      | none => none := by
  induction l1 generalizing acc with
  | nil => simp [parseDigitsAux]
  | cons c cs ih =>
    simp only [List.cons_append, parseDigitsAux]
    cases hc : charDigit? c with
    | some d => exact ih _
    | none => rfl

lemma parseDigitsAux_natToCharsGo (fuel : ℕ) : ∀ n acc, n < fuel →
    parseDigitsAux acc (natToCharsGo fuel n) =
      some (acc * 10 ^ (natToCharsGo fuel n).length + n) := by
  induction fuel with
  | zero => intro n acc h; omega
  | succ f ih =>
    intro n acc hn
    simp only [natToCharsGo]
    by_cases h10 : n < 10
    · simp only [h10, if_true, parseDigitsAux, (digitChar_spec ⟨n, h10⟩).1]
      simp [parseDigitsAux]
      ring
    · have hd : n / 10 < n := Nat.div_lt_self (by omega) (by omega)
      simp only [h10, if_false]
      rw [parseDigitsAux_append]
      rw [ih (n / 10) acc (by omega)]
      simp only [parseDigitsAux, (digitChar_spec ⟨n % 10, Nat.mod_lt n (by omega)⟩).1]
      have hlen : (natToCharsGo f (n / 10) ++ [Char.ofNat (48 + n % 10)]).length =
          (natToCharsGo f (n / 10)).length + 1 := by simp
      rw [hlen]
      have harith : 10 * (acc * 10 ^ (natToCharsGo f (n / 10)).length + n / 10) + n % 10 =
          acc * 10 ^ ((natToCharsGo f (n / 10)).length + 1) + (10 * (n / 10) + n % 10) := by
        ring
      rw [harith, Nat.div_add_mod n 10]

lemma parseDigitsAux_natToChars (n acc : ℕ) :
    parseDigitsAux acc (natToChars n) = some (acc * 10 ^ (natToChars n).length + n) :=
  parseDigitsAux_natToCharsGo (n + 1) n acc (by omega)

lemma parseDigitsAux_replicate_zero (k : ℕ) (l : List Char) :
    parseDigitsAux 0 (List.replicate k '0' ++ l) = parseDigitsAux 0 l := by
  induction k with
  | zero => simp
  | succ k ih =>
    have h0 : charDigit? '0' = some 0 := by decide
    simp only [List.replicate_succ, List.cons_append, parseDigitsAux, h0]
    simpa using ih

lemma parseNatChars_of_ne_nil {l : List Char} (h : l ≠ []) :
    parseNatChars l = parseDigitsAux 0 l := by
  cases l with
  | nil => exact absurd rfl h
  | cons c cs => rfl

lemma pyPad_ne_nil (w n : ℕ) : pyPad w n ≠ [] := by
  unfold pyPad
  intro h
  rw [List.append_eq_nil] at h
  exact natToChars_ne_nil n h.2

lemma parseNatChars_pyPad (w n : ℕ) : parseNatChars (pyPad w n) = some n := by
  rw [parseNatChars_of_ne_nil (pyPad_ne_nil w n)]
  unfold pyPad
  rw [parseDigitsAux_replicate_zero, parseDigitsAux_natToChars]
  simp

lemma mem_pyPad {c : Char} {w n : ℕ} (h : c ∈ pyPad w n) :
    ∃ d : Fin 10, c = Char.ofNat (48 + d.val) := by
  unfold pyPad at h
  rcases List.mem_append.mp h with h | h
  · have h0 : c = '0' := List.eq_of_mem_replicate h
    exact ⟨⟨0, by omega⟩, by rw [h0]; decide⟩
  · exact mem_natToChars h

lemma pyPad_char_spec {w n : ℕ} : ∀ c ∈ pyPad w n,
    c ≠ ':' ∧ c ≠ ',' ∧ c.isWhitespace = false := by
  intro c hc
  obtain ⟨d, rfl⟩ := mem_pyPad hc
  exact ⟨(digitChar_spec d).2.1, (digitChar_spec d).2.2.1, (digitChar_spec d).2.2.2⟩

/-! ## Helper lemmas: splitting and stripping -/

lemma splitOnceChar_append (sep : Char) (l1 l2 : List Char)
    (h : ∀ c ∈ l1, c ≠ sep) :
    splitOnceChar sep (l1 ++ sep :: l2) = some (l1, l2) := by
  induction l1 with
  | nil => simp [splitOnceChar]
  | cons c cs ih =>
    have hc : c ≠ sep := h c (by simp)
    simp only [List.cons_append, splitOnceChar, hc, if_false, List.append_eq]
    rw [ih (fun x hx => h x (by simp [hx]))]
    rfl

lemma splitAllChar_of_no_sep (sep : Char) (l : List Char)
    (h : ∀ c ∈ l, c ≠ sep) :
    splitAllChar sep l = [l] := by
  induction l with
  | nil => rfl
  | cons c cs ih =>
    have hc : c ≠ sep := h c (by simp)
    simp only [splitAllChar, hc, if_false]
    rw [ih (fun x hx => h x (by simp [hx]))]

lemma splitAllChar_append (sep : Char) (l1 l2 : List Char)
    (h : ∀ c ∈ l1, c ≠ sep) :
    splitAllChar sep (l1 ++ sep :: l2) = l1 :: splitAllChar sep l2 := by
  induction l1 with
  | nil => simp [splitAllChar]
  | cons c cs ih =>
    have hc : c ≠ sep := h c (by simp)
    simp only [List.cons_append, splitAllChar, hc, if_false, List.append_eq]
    rw [ih (fun x hx => h x (by simp [hx]))]

lemma dropWhile_eq_self_of_none {p : Char → Bool} {l : List Char}
    (h : ∀ c ∈ l, p c = false) : l.dropWhile p = l := by
  cases l with
  | nil => rfl
  | cons c cs => simp [List.dropWhile, h c (by simp)]

lemma pyStrip_eq_self {l : List Char} (h : ∀ c ∈ l, c.isWhitespace = false) :
    pyStrip l = l := by
  unfold pyStrip
  rw [dropWhile_eq_self_of_none h]
  rw [dropWhile_eq_self_of_none (fun c hc => h c (List.mem_reverse.mp hc))]
  exact List.reverse_reverse l

lemma formatSrtFields_char_spec (hh mm ss ms : ℕ) :
    ∀ c ∈ formatSrtFields hh mm ss ms, c.isWhitespace = false := by
  intro c hc
  unfold formatSrtFields at hc
  have hcolon : (':' : Char).isWhitespace = false := by decide
  have hcomma : (',' : Char).isWhitespace = false := by decide
  rcases List.mem_append.mp hc with h | h
  · exact (pyPad_char_spec c h).2.2
  · rcases List.mem_cons.mp h with rfl | h
    · exact hcolon
    · rcases List.mem_append.mp h with h | h
      · exact (pyPad_char_spec c h).2.2
      · rcases List.mem_cons.mp h with rfl | h
        · exact hcolon
        · rcases List.mem_append.mp h with h | h
          · exact (pyPad_char_spec c h).2.2
          · rcases List.mem_cons.mp h with rfl | h
            · exact hcomma
            · exact (pyPad_char_spec c h).2.2

/-! ## Helper lemmas: parsing a formatted timestamp -/

lemma srt_parse_format (hh mm ss ms : ℕ) :
    srt_time_to_seconds (String.mk (formatSrtFields hh mm ss ms)) =
      some ((hh : ℚ) * 3600 + (mm : ℚ) * 60 + (ss : ℚ) + (ms : ℚ) / 1000) := by
  have h1 : splitOnceChar ':'
      (pyPad 2 hh ++ ':' :: (pyPad 2 mm ++ ':' :: (pyPad 2 ss ++ ',' :: pyPad 3 ms))) =
      some (pyPad 2 hh, pyPad 2 mm ++ ':' :: (pyPad 2 ss ++ ',' :: pyPad 3 ms)) :=
    splitOnceChar_append ':' _ _ (fun c hc => (pyPad_char_spec c hc).1)
  have h2 : splitOnceChar ':' (pyPad 2 mm ++ ':' :: (pyPad 2 ss ++ ',' :: pyPad 3 ms)) =
      some (pyPad 2 mm, pyPad 2 ss ++ ',' :: pyPad 3 ms) :=
    splitOnceChar_append ':' _ _ (fun c hc => (pyPad_char_spec c hc).1)
  have h3 : splitAllChar ',' (pyPad 2 ss ++ ',' :: pyPad 3 ms) = [pyPad 2 ss, pyPad 3 ms] := by
    rw [splitAllChar_append ',' _ _ (fun c hc => (pyPad_char_spec c hc).2.1)]
    rw [splitAllChar_of_no_sep ',' _ (fun c hc => (pyPad_char_spec c hc).2.1)]
  simp only [srt_time_to_seconds, formatSrtFields, h1, h2, h3, parseNatChars_pyPad]

/-! ## Helper lemmas: rounding and the timestamp round trip -/

lemma pyRound_natCast (m : ℕ) : pyRound (m : ℚ) = (m : ℤ) := by
  simp only [pyRound, Int.floor_natCast]
  norm_num

lemma pyRound_nonneg {q : ℚ} (h : 0 ≤ q) : 0 ≤ pyRound q := by
  have hf : (0 : ℤ) ≤ ⌊q⌋ := Int.floor_nonneg.mpr h
  simp only [pyRound]
  split
  · exact hf
  · split
    · omega
    · split <;> omega

lemma srt_fields_value (n : ℕ) :
    ((n / 3600000 : ℕ) : ℚ) * 3600 + ((n % 3600000 / 60000 : ℕ) : ℚ) * 60 +
      ((n % 3600000 % 60000 / 1000 : ℕ) : ℚ) +
      ((n % 3600000 % 60000 % 1000 : ℕ) : ℚ) / 1000 = (n : ℚ) / 1000 := by
  have key : 3600000 * (n / 3600000) + 60000 * (n % 3600000 / 60000) +
      1000 * (n % 3600000 % 60000 / 1000) + n % 3600000 % 60000 % 1000 = n := by omega
  have keyQ : (3600000 : ℚ) * ((n / 3600000 : ℕ) : ℚ) +
      60000 * ((n % 3600000 / 60000 : ℕ) : ℚ) +
      1000 * ((n % 3600000 % 60000 / 1000 : ℕ) : ℚ) +
      ((n % 3600000 % 60000 % 1000 : ℕ) : ℚ) = (n : ℚ) := by
    exact_mod_cast congrArg (fun k : ℕ => (k : ℚ)) key
  field_simp
  linarith [keyQ]

lemma seconds_to_srt_time_of_nonneg (q : ℚ) (hq : 0 ≤ q) :
    seconds_to_srt_time q = String.mk (formatSrtFields
      ((pyRound (q * 1000)).toNat / 3600000)
      ((pyRound (q * 1000)).toNat % 3600000 / 60000)
      ((pyRound (q * 1000)).toNat % 3600000 % 60000 / 1000)
      ((pyRound (q * 1000)).toNat % 3600000 % 60000 % 1000)) := by
  unfold seconds_to_srt_time
  rw [if_neg (not_lt.mpr hq)]

lemma roundtrip_core (q : ℚ) (hq : 0 ≤ q) :
    srt_time_to_seconds (seconds_to_srt_time q) =
      some (((pyRound (q * 1000)).toNat : ℚ) / 1000) := by
  rw [seconds_to_srt_time_of_nonneg q hq, srt_parse_format, srt_fields_value]

lemma seconds_to_srt_time_div1000 (n : ℕ) :
    seconds_to_srt_time ((n : ℚ) / 1000) = String.mk (formatSrtFields (n / 3600000)
      (n % 3600000 / 60000) (n % 3600000 % 60000 / 1000) (n % 3600000 % 60000 % 1000)) := by
  rw [seconds_to_srt_time_of_nonneg _ (by positivity)]
  have h2 : ((n : ℚ) / 1000) * 1000 = ((n : ℕ) : ℚ) := by field_simp
  rw [h2, pyRound_natCast]
  simp

/-! ## Claim theorems: timecode codec -/

/-- C1: for every non-negative seconds value already rounded to millisecond
precision — that is, every value `m / 1000` with `m : ℕ` milliseconds —
`srt_time_to_seconds (seconds_to_srt_time x)` returns exactly `x` (so in
particular it is within 1 millisecond of `x`): the SRT timestamp round-trip
law. -/
theorem srt_roundtrip_millis (m : ℕ) :
    srt_time_to_seconds (seconds_to_srt_time ((m : ℚ) / 1000)) =
      some ((m : ℚ) / 1000) := by
  rw [roundtrip_core ((m : ℚ) / 1000) (by positivity)]
  have h2 : ((m : ℚ) / 1000) * 1000 = ((m : ℕ) : ℚ) := by field_simp
  rw [h2, pyRound_natCast]
  simp

/-- C8: `seconds_to_srt_time` clamps negative input to 0, rounds to the
nearest millisecond (Python's banker's rounding, `pyRound`) such that the
rendered timestamp re-parses to exactly the rounded millisecond count — with
the hours field rendered in full, no modulo wraparound — and in particular
`seconds_to_srt_time 3661.5 = "01:01:01,500"`. -/
theorem seconds_to_srt_time_spec :
    (∀ q : ℚ, q < 0 → seconds_to_srt_time q = seconds_to_srt_time 0) ∧
    (∀ q : ℚ, 0 ≤ q → srt_time_to_seconds (seconds_to_srt_time q) =
      some (((pyRound (q * 1000)).toNat : ℚ) / 1000)) ∧
    seconds_to_srt_time (7323 / 2 : ℚ) = "01:01:01,500" := by
  refine ⟨?_, fun q hq => roundtrip_core q hq, ?_⟩
  · intro q hq
    unfold seconds_to_srt_time
    rw [if_pos hq, if_neg (lt_irrefl (0 : ℚ))]
  · have h : (7323 / 2 : ℚ) = ((3661500 : ℕ) : ℚ) / 1000 := by norm_num
    rw [h, seconds_to_srt_time_div1000]
    decide

/-- C8 witness: the clamping conjunct applied at `q = -1` and the round-trip
conjunct applied at `q = 0`. -/
theorem seconds_to_srt_time_spec_witness :
    ((-1 : ℚ) < 0 ∧ seconds_to_srt_time (-1) = seconds_to_srt_time 0) ∧
    ((0 : ℚ) ≤ 0 ∧ srt_time_to_seconds (seconds_to_srt_time 0) =
      some (((pyRound ((0 : ℚ) * 1000)).toNat : ℚ) / 1000)) := by
  constructor
  · exact ⟨by norm_num, seconds_to_srt_time_spec.1 (-1) (by norm_num)⟩
  · exact ⟨le_refl 0, seconds_to_srt_time_spec.2.1 0 (le_refl 0)⟩

/-- C9: on every well-formed SRT timestamp `HH:MM:SS,mmm` (minutes and
seconds at most two digits, milliseconds at most three), `srt_time_to_ass_time`
truncates milliseconds to centiseconds by integer division by 10 and renders
`H:MM:SS.cc` with an unpadded hours field. -/
theorem srt_time_to_ass_time_trunc (hh mm ss ms : ℕ)
    (hmm : mm ≤ 99) (hss : ss ≤ 99) (hms : ms ≤ 999) :
    srt_time_to_ass_time (String.mk (formatSrtFields hh mm ss ms)) =
      some (String.mk (natToChars hh ++ ':' ::
        (pyPad 2 mm ++ ':' :: (pyPad 2 ss ++ '.' :: pyPad 2 (ms / 10))))) := by
  have hst : pyStrip
      (pyPad 2 hh ++ ':' :: (pyPad 2 mm ++ ':' :: (pyPad 2 ss ++ ',' :: pyPad 3 ms))) =
      pyPad 2 hh ++ ':' :: (pyPad 2 mm ++ ':' :: (pyPad 2 ss ++ ',' :: pyPad 3 ms)) :=
    pyStrip_eq_self (fun c hc => formatSrtFields_char_spec hh mm ss ms c hc)
  have h1 : splitOnceChar ':'
      (pyPad 2 hh ++ ':' :: (pyPad 2 mm ++ ':' :: (pyPad 2 ss ++ ',' :: pyPad 3 ms))) =
      some (pyPad 2 hh, pyPad 2 mm ++ ':' :: (pyPad 2 ss ++ ',' :: pyPad 3 ms)) :=
    splitOnceChar_append ':' _ _ (fun c hc => (pyPad_char_spec c hc).1)
  have h2 : splitOnceChar ':' (pyPad 2 mm ++ ':' :: (pyPad 2 ss ++ ',' :: pyPad 3 ms)) =
      some (pyPad 2 mm, pyPad 2 ss ++ ',' :: pyPad 3 ms) :=
    splitOnceChar_append ':' _ _ (fun c hc => (pyPad_char_spec c hc).1)
  have h3 : splitAllChar ',' (pyPad 2 ss ++ ',' :: pyPad 3 ms) = [pyPad 2 ss, pyPad 3 ms] := by
    rw [splitAllChar_append ',' _ _ (fun c hc => (pyPad_char_spec c hc).2.1)]
    rw [splitAllChar_of_no_sep ',' _ (fun c hc => (pyPad_char_spec c hc).2.1)]
  simp only [srt_time_to_ass_time, hst, formatSrtFields, h1, h2, h3, parseNatChars_pyPad]

/-- C9 witness: the two examples from the specification,
`"01:01:01,500" → "1:01:01.50"` and `"00:00:00,009" → "0:00:00.00"`. -/
theorem srt_time_to_ass_time_trunc_witness :
    srt_time_to_ass_time "01:01:01,500" = some "1:01:01.50" ∧
    srt_time_to_ass_time "00:00:00,009" = some "0:00:00.00" := by
  constructor
  · exact srt_time_to_ass_time_trunc 1 1 1 500 (by decide) (by decide) (by decide)
  · exact srt_time_to_ass_time_trunc 0 0 0 9 (by decide) (by decide) (by decide)

/-! ## Helper lemmas: the SRT writer loop -/

lemma srtSegLines_length (idx : ℕ) (seg : SegDict) : (srtSegLines idx seg).length = 4 := rfl

lemma srtLinesFrom_length (segs : List SegDict) : ∀ idx,
    (srtLinesFrom idx segs).length = 4 * segs.length := by
  induction segs with
  | nil => intro idx; rfl
  | cons s rest ih =>
    intro idx
    show (srtSegLines idx s ++ srtLinesFrom (idx + 1) rest).length = 4 * (rest.length + 1)
    rw [List.length_append, srtSegLines_length, ih]
    omega

lemma srtLinesFrom_get (segs : List SegDict) : ∀ idx i seg j, segs[i]? = some seg → j < 4 →
    (srtLinesFrom idx segs)[4 * i + j]? = (srtSegLines (idx + i) seg)[j]? := by
  induction segs with
  | nil => intro idx i seg j h _; simp at h
  | cons s rest ih =>
    intro idx i seg j h hj
    cases i with
    | zero =>
      have hs : s = seg := by simpa using h
      subst hs
      show (srtSegLines idx s ++ srtLinesFrom (idx + 1) rest)[4 * 0 + j]? = _
      rw [List.getElem?_append_left (by rw [srtSegLines_length]; omega)]
      norm_num
    | succ k =>
      have h' : rest[k]? = some seg := by simpa using h
      show (srtSegLines idx s ++ srtLinesFrom (idx + 1) rest)[4 * (k + 1) + j]? = _
      rw [List.getElem?_append_right (by rw [srtSegLines_length]; omega)]
      rw [srtSegLines_length]
      have hidx : 4 * (k + 1) + j - 4 = 4 * k + j := by omega
      rw [hidx, ih (idx + 1) k seg j h' hj]
      have : idx + 1 + k = idx + (k + 1) := by omega
      rw [this]

lemma srtLinesFrom_append (pre : List SegDict) : ∀ idx x post,
    srtLinesFrom idx (pre ++ x :: post) =
      srtLinesFrom idx pre ++
        (srtSegLines (idx + pre.length) x ++ srtLinesFrom (idx + pre.length + 1) post) := by
  induction pre with
  | nil => intro idx x post; simp [srtLinesFrom]
  | cons s rest ih =>
    intro idx x post
    show srtSegLines idx s ++ srtLinesFrom (idx + 1) (rest ++ x :: post) =
      (srtSegLines idx s ++ srtLinesFrom (idx + 1) rest) ++
        (srtSegLines (idx + (rest.length + 1)) x ++
          srtLinesFrom (idx + (rest.length + 1) + 1) post)
    rw [ih (idx + 1) x post, List.append_assoc]
    have h1 : idx + 1 + rest.length = idx + (rest.length + 1) := by omega
    rw [h1]

/-! ## Claim theorems: the SRT writer -/

/-- C4: `write_srt` emits, for the segment at 0-based position `i`, a block
of four lines at offset `4*i` of the emitted line list — the 1-based index
`i+1`, the `start --> end` timestamp line produced by the timecode codec,
the stripped text, and a blank separator line — and the whole list is
exactly 4 lines per segment, so empty-text segments are emitted too and
index numbering stays consecutive. -/
theorem write_srt_blocks (segs : List SegDict) (i : ℕ) (seg : SegDict)
    (h : segs[i]? = some seg) :
    (srtLinesFrom 1 segs).length = 4 * segs.length ∧
    (srtLinesFrom 1 segs)[4 * i]? = some (natStr (i + 1)) ∧
    (srtLinesFrom 1 segs)[4 * i + 1]? =
      some (seconds_to_srt_time (segStart seg) ++ " --> " ++
        seconds_to_srt_time (segStop seg)) ∧
    (srtLinesFrom 1 segs)[4 * i + 2]? = some (segText seg) ∧
    (srtLinesFrom 1 segs)[4 * i + 3]? = some "" := by
  have h0 := srtLinesFrom_get segs 1 i seg 0 h (by omega)
  have h1 := srtLinesFrom_get segs 1 i seg 1 h (by omega)
  have h2 := srtLinesFrom_get segs 1 i seg 2 h (by omega)
  have h3 := srtLinesFrom_get segs 1 i seg 3 h (by omega)
  refine ⟨srtLinesFrom_length segs 1, ?_, ?_, ?_, ?_⟩
  · have : (4 : ℕ) * i + 0 = 4 * i := by omega
    rw [this] at h0
    rw [h0]
    show some (natStr (1 + i)) = some (natStr (i + 1))
    rw [Nat.add_comm 1 i]
  · rw [h1]; rfl
  · rw [h2]; rfl
  · rw [h3]; rfl

/-- C4 witness: the specification's example shape — a two-segment list whose
second segment has empty text still yields a full block with index line "2"
and an empty text line, with 8 lines in total. -/
theorem write_srt_blocks_witness :
    ([⟨some 0, some 1, some "Hi"⟩, ⟨some 1, some 2, some ""⟩] : List SegDict)[1]? =
      some ⟨some 1, some 2, some ""⟩ ∧
    (srtLinesFrom 1 [⟨some 0, some 1, some "Hi"⟩, ⟨some 1, some 2, some ""⟩]).length = 8 ∧
    (srtLinesFrom 1 [⟨some 0, some 1, some "Hi"⟩, ⟨some 1, some 2, some ""⟩])[4]? =
      some "2" ∧
    (srtLinesFrom 1 [⟨some 0, some 1, some "Hi"⟩, ⟨some 1, some 2, some ""⟩])[6]? =
      some "" ∧
    (srtLinesFrom 1 [⟨some 0, some 1, some "Hi"⟩, ⟨some 1, some 2, some ""⟩])[7]? =
      some "" := by
  have h := write_srt_blocks [⟨some 0, some 1, some "Hi"⟩, ⟨some 1, some 2, some ""⟩] 1
    ⟨some 1, some 2, some ""⟩ rfl
  exact ⟨rfl, h.1, h.2.1, h.2.2.2.1, h.2.2.2.2⟩

/-- C10: `write_srt` is total on segment dicts with missing keys: a missing
`start` is read as 0, a missing `end` as the segment's start value, and a
missing `text` as the empty string — replacing the missing key by that
explicit default leaves the emitted SRT content unchanged, at any position
in the segment list. -/
theorem write_srt_defaults (pre post : List SegDict) (s e : Option ℚ) (t : Option String) :
    write_srt_content (pre ++ { start? := none, stop? := e, text? := t } :: post) =
      write_srt_content (pre ++ { start? := some 0, stop? := e, text? := t } :: post) ∧
    write_srt_content (pre ++ { start? := s, stop? := none, text? := t } :: post) =
      write_srt_content (pre ++ { start? := s, stop? := some (s.getD 0), text? := t } :: post) ∧
    write_srt_content (pre ++ { start? := s, stop? := e, text? := none } :: post) =
      write_srt_content (pre ++ { start? := s, stop? := e, text? := some "" } :: post) := by
  refine ⟨?_, ?_, ?_⟩ <;>
    · simp only [write_srt_content, srtLinesFrom_append]
      rfl

/-! ## Helper lemmas: directory creation -/

lemma makedirs_ok {fs fs0 : FS} {p : String} (h : makedirs fs p = Except.ok fs0) :
    fs0.files = fs.files ∧ p ∉ fs.files ∧ p ∈ fs0.dirs ∧ ∀ q ∈ fs.dirs, q ∈ fs0.dirs := by
  unfold makedirs at h
  by_cases hpf : p ∈ fs.files
  · simp [hpf] at h
  · by_cases hpd : p ∈ fs.dirs
    · simp only [hpf, if_false, hpd, if_true, Except.ok.injEq] at h
      subst h
      exact ⟨rfl, hpf, hpd, fun q hq => hq⟩
    · simp only [hpf, if_false, hpd, Except.ok.injEq] at h
      subst h
      exact ⟨rfl, hpf, by simp, fun q hq => by simp [hq]⟩

lemma makedirs_idem {fs : FS} {p : String} (hd : p ∈ fs.dirs) (hf : p ∉ fs.files) :
    makedirs fs p = Except.ok fs := by
  unfold makedirs
  simp [hd, hf]

lemma makedirsAll_ok (ps : List String) : ∀ fs fs1, makedirsAll fs ps = Except.ok fs1 →
    fs1.files = fs.files ∧ (∀ q ∈ fs.dirs, q ∈ fs1.dirs) ∧
      ∀ p ∈ ps, p ∈ fs1.dirs ∧ p ∉ fs1.files := by
  induction ps with
  | nil =>
    intro fs fs1 h
    simp only [makedirsAll, Except.ok.injEq] at h
    subst h
    exact ⟨rfl, fun q hq => hq, by simp⟩
  | cons p ps ih =>
    intro fs fs1 h
    simp only [makedirsAll] at h
    cases hm : makedirs fs p with
    | error e => rw [hm] at h; cases h
    | ok fs0 =>
      rw [hm] at h
      obtain ⟨hfiles0, hpf, hpd0, hmono0⟩ := makedirs_ok hm
      obtain ⟨hfiles1, hmono1, hall⟩ := ih fs0 fs1 h
      refine ⟨hfiles1.trans hfiles0, fun q hq => hmono1 q (hmono0 q hq), ?_⟩
      intro q hq
      rcases List.mem_cons.mp hq with rfl | hq
      · exact ⟨hmono1 q hpd0, by rw [hfiles1, hfiles0]; exact hpf⟩
      · exact hall q hq

lemma makedirsAll_idem (ps : List String) : ∀ fs,
    (∀ p ∈ ps, p ∈ fs.dirs ∧ p ∉ fs.files) → makedirsAll fs ps = Except.ok fs := by
  induction ps with
  | nil => intro fs _; rfl
  | cons p ps ih =>
    intro fs h
    have hp := h p (by simp)
    simp only [makedirsAll, makedirs_idem hp.1 hp.2]
    exact ih fs (fun q hq => h q (by simp [hq]))

/-! ## Claim theorems: work directory manager -/

/-- C5 counterexample: on a fresh file system, `ensure_workdirs` for
`"abc123"` creates exactly root plus video, audio, transcripts, enhanced and
subtitled — the claimed `translated/` subdirectory is not among the created
directories (and `WorkDirs` carries no path for it). -/
theorem ensure_workdirs_no_translated :
    ensure_workdirs "outputs" ⟨[], []⟩ "abc123" = Except.ok
      (⟨["outputs/abc123", "outputs/abc123/video", "outputs/abc123/audio",
         "outputs/abc123/transcripts", "outputs/abc123/enhanced",
         "outputs/abc123/subtitled"], []⟩,
       ⟨"outputs/abc123", "outputs/abc123/video", "outputs/abc123/audio",
        "outputs/abc123/transcripts", "outputs/abc123/enhanced",
        "outputs/abc123/subtitled"⟩) ∧
    "outputs/abc123/translated" ∉
      ["outputs/abc123", "outputs/abc123/video", "outputs/abc123/audio",
       "outputs/abc123/transcripts", "outputs/abc123/enhanced",
       "outputs/abc123/subtitled"] := by
  exact ⟨rfl, by decide⟩

/-- C5 (amended): for every videoId, a successful `ensure_workdirs` run
creates, under the outputs root joined with videoId, the fixed named
subdirectories video/, audio/, transcripts/, enhanced/ and subtitled/ —
but not translated/ — and returns typed paths to exactly those five. -/
theorem ensure_workdirs_creates (outputsRoot : String) (fs : FS) (video_id : String)
    (fs1 : FS) (wd : WorkDirs)
    (h : ensure_workdirs outputsRoot fs video_id = Except.ok (fs1, wd)) :
    wd = { root := joinPath outputsRoot video_id
           video_dir := joinPath (joinPath outputsRoot video_id) "video"
           audio_dir := joinPath (joinPath outputsRoot video_id) "audio"
           transcripts_dir := joinPath (joinPath outputsRoot video_id) "transcripts"
           enhanced_dir := joinPath (joinPath outputsRoot video_id) "enhanced"
           subtitled_dir := joinPath (joinPath outputsRoot video_id) "subtitled" } ∧
    ∀ p ∈ workdirPaths outputsRoot video_id, p ∈ fs1.dirs := by
  simp only [ensure_workdirs] at h
  cases hm : makedirsAll fs (workdirPaths outputsRoot video_id) with
  | error e => rw [hm] at h; cases h
  | ok fs2 =>
    rw [hm] at h
    simp only [Except.ok.injEq, Prod.mk.injEq] at h
    obtain ⟨hfs, hwd⟩ := h
    subst hfs
    exact ⟨hwd.symm, fun p hp => ((makedirsAll_ok _ _ _ hm).2.2 p hp).1⟩

/-- C5 witness: the amended claim applied at a fresh file system and
videoId `"abc123"`. -/
theorem ensure_workdirs_creates_witness :
    ensure_workdirs "outputs" ⟨[], []⟩ "abc123" = Except.ok
      (⟨["outputs/abc123", "outputs/abc123/video", "outputs/abc123/audio",
         "outputs/abc123/transcripts", "outputs/abc123/enhanced",
         "outputs/abc123/subtitled"], []⟩,
       ⟨"outputs/abc123", "outputs/abc123/video", "outputs/abc123/audio",
        "outputs/abc123/transcripts", "outputs/abc123/enhanced",
        "outputs/abc123/subtitled"⟩) ∧
    (⟨"outputs/abc123", "outputs/abc123/video", "outputs/abc123/audio",
      "outputs/abc123/transcripts", "outputs/abc123/enhanced",
      "outputs/abc123/subtitled"⟩ : WorkDirs) =
      { root := joinPath "outputs" "abc123"
        video_dir := joinPath (joinPath "outputs" "abc123") "video"
        audio_dir := joinPath (joinPath "outputs" "abc123") "audio"
        transcripts_dir := joinPath (joinPath "outputs" "abc123") "transcripts"
        enhanced_dir := joinPath (joinPath "outputs" "abc123") "enhanced"
        subtitled_dir := joinPath (joinPath "outputs" "abc123") "subtitled" } ∧
    ∀ p ∈ workdirPaths "outputs" "abc123",
      p ∈ (⟨["outputs/abc123", "outputs/abc123/video", "outputs/abc123/audio",
             "outputs/abc123/transcripts", "outputs/abc123/enhanced",
             "outputs/abc123/subtitled"], []⟩ : FS).dirs := by
  have hrun : ensure_workdirs "outputs" ⟨[], []⟩ "abc123" = Except.ok
      (⟨["outputs/abc123", "outputs/abc123/video", "outputs/abc123/audio",
         "outputs/abc123/transcripts", "outputs/abc123/enhanced",
         "outputs/abc123/subtitled"], []⟩,
       ⟨"outputs/abc123", "outputs/abc123/video", "outputs/abc123/audio",
        "outputs/abc123/transcripts", "outputs/abc123/enhanced",
        "outputs/abc123/subtitled"⟩) := rfl
  have h := ensure_workdirs_creates "outputs" ⟨[], []⟩ "abc123" _ _ hrun
  exact ⟨hrun, h.1, h.2⟩

/-- C6: `ensure_workdirs` is idempotent — after a successful run, running it
again on the resulting file system changes nothing, does not fail, and
returns the same `WorkDirs` value. -/
theorem ensure_workdirs_idempotent (outputsRoot : String) (fs : FS) (video_id : String)
    (fs1 : FS) (wd : WorkDirs)
    (h : ensure_workdirs outputsRoot fs video_id = Except.ok (fs1, wd)) :
    ensure_workdirs outputsRoot fs1 video_id = Except.ok (fs1, wd) := by
  simp only [ensure_workdirs] at h ⊢
  cases hm : makedirsAll fs (workdirPaths outputsRoot video_id) with
  | error e => rw [hm] at h; cases h
  | ok fs2 =>
    rw [hm] at h
    simp only [Except.ok.injEq, Prod.mk.injEq] at h
    obtain ⟨hfs, hwd⟩ := h
    subst hfs
    have hall := (makedirsAll_ok _ _ _ hm).2.2
    rw [makedirsAll_idem _ _ (fun p hp => hall p hp)]
    rw [hwd]

/-- C6 witness: the idempotence applied after a first run on a fresh file
system for videoId `"abc123"`. -/
theorem ensure_workdirs_idempotent_witness :
    ensure_workdirs "outputs" ⟨[], []⟩ "abc123" = Except.ok
      (⟨["outputs/abc123", "outputs/abc123/video", "outputs/abc123/audio",
         "outputs/abc123/transcripts", "outputs/abc123/enhanced",
         "outputs/abc123/subtitled"], []⟩,
       ⟨"outputs/abc123", "outputs/abc123/video", "outputs/abc123/audio",
        "outputs/abc123/transcripts", "outputs/abc123/enhanced",
        "outputs/abc123/subtitled"⟩) ∧
    ensure_workdirs "outputs"
      ⟨["outputs/abc123", "outputs/abc123/video", "outputs/abc123/audio",
        "outputs/abc123/transcripts", "outputs/abc123/enhanced",
        "outputs/abc123/subtitled"], []⟩ "abc123" = Except.ok
      (⟨["outputs/abc123", "outputs/abc123/video", "outputs/abc123/audio",
         "outputs/abc123/transcripts", "outputs/abc123/enhanced",
         "outputs/abc123/subtitled"], []⟩,
       ⟨"outputs/abc123", "outputs/abc123/video", "outputs/abc123/audio",
        "outputs/abc123/transcripts", "outputs/abc123/enhanced",
        "outputs/abc123/subtitled"⟩) := by
  have hrun : ensure_workdirs "outputs" ⟨[], []⟩ "abc123" = Except.ok
      (⟨["outputs/abc123", "outputs/abc123/video", "outputs/abc123/audio",
         "outputs/abc123/transcripts", "outputs/abc123/enhanced",
         "outputs/abc123/subtitled"], []⟩,
       ⟨"outputs/abc123", "outputs/abc123/video", "outputs/abc123/audio",
        "outputs/abc123/transcripts", "outputs/abc123/enhanced",
        "outputs/abc123/subtitled"⟩) := rfl
  exact ⟨hrun, ensure_workdirs_idempotent "outputs" ⟨[], []⟩ "abc123" _ _ hrun⟩

/-! ## Claim theorems: configuration validation -/

/-- C7: `Config.__post_init__` validation — construction succeeds exactly
when the ASR backend is in the allowed set, the subtitle mode is in
{soft, burn} and the box opacity lies in the inclusive interval [0, 1];
each violated constraint raises with a message naming the offending value,
checked in source order. -/
theorem configPostInit_validation (backend mode : String) (op : ℚ) :
    (configPostInitValidate backend mode op = Except.ok () ↔
      ((backend = "local" ∨ backend = "groq") ∧ (mode = "soft" ∨ mode = "burn") ∧
        0 ≤ op ∧ op ≤ 1)) ∧
    (¬ (backend = "local" ∨ backend = "groq") →
      configPostInitValidate backend mode op =
        Except.error ("Invalid ASR backend: " ++ backend ++ ". Must be 'local' or 'groq'")) ∧
    ((backend = "local" ∨ backend = "groq") → ¬ (mode = "soft" ∨ mode = "burn") →
      configPostInitValidate backend mode op =
        Except.error ("Invalid subtitle mode: " ++ mode ++ ". Must be 'soft' or 'burn'")) ∧
    ((backend = "local" ∨ backend = "groq") → (mode = "soft" ∨ mode = "burn") →
      ¬ (0 ≤ op ∧ op ≤ 1) →
      configPostInitValidate backend mode op =
        Except.error ("Box opacity must be between 0.0 and 1.0, got: " ++ toString op)) := by
  unfold configPostInitValidate
  by_cases hb : backend = "local" ∨ backend = "groq" <;>
    by_cases hm : mode = "soft" ∨ mode = "burn" <;>
      by_cases ho : 0 ≤ op ∧ op ≤ 1 <;>
        simp [hb, hm, ho]

/-- C7 witness: both inclusive boundaries accepted; a bad backend, the mode
`"blend"` and an out-of-range opacity each rejected with the source's
message. -/
theorem configPostInit_validation_witness :
    configPostInitValidate "local" "soft" 1 = Except.ok () ∧
    configPostInitValidate "groq" "burn" 0 = Except.ok () ∧
    configPostInitValidate "remote" "soft" 0 =
      Except.error "Invalid ASR backend: remote. Must be 'local' or 'groq'" ∧
    configPostInitValidate "local" "blend" 0 =
      Except.error "Invalid subtitle mode: blend. Must be 'soft' or 'burn'" ∧
    configPostInitValidate "local" "soft" 2 =
      Except.error ("Box opacity must be between 0.0 and 1.0, got: " ++ toString (2 : ℚ)) := by
  refine ⟨?_, ?_, ?_, ?_, ?_⟩
  · exact (configPostInit_validation "local" "soft" 1).1.mpr
      ⟨Or.inl rfl, Or.inl rfl, by decide, by decide⟩
  · exact (configPostInit_validation "groq" "burn" 0).1.mpr
      ⟨Or.inr rfl, Or.inr rfl, by decide, by decide⟩
  · exact (configPostInit_validation "remote" "soft" 0).2.1 (by decide)
  · exact (configPostInit_validation "local" "blend" 0).2.2.1 (Or.inl rfl) (by decide)
  · exact (configPostInit_validation "local" "soft" 2).2.2.2 (Or.inl rfl) (Or.inl rfl)
      (by decide)

/-! ## Claim theorems: orchestrator stage gating -/

/-- C2: in `run_pipeline_with_config`, the translate branch is entered iff
the translator is enabled and the target language is non-empty; with only
one of the two set the stage is skipped with a warning (never an error),
the prior stage's segments are kept for rendering, and the outcome is
independent of the translation backend (it is not invoked). -/
theorem translation_stage_gating {α : Type} (enabled : Bool) (target : String)
    (llm_backend : String) (f g : List α → String → List α) (segs : List α) :
    ((translationStage enabled target llm_backend f segs).branchEntered = true ↔
      (enabled = true ∧ target ≠ "")) ∧
    ((enabled = true ∧ target = "") ∨ (enabled = false ∧ target ≠ "") →
      translationStage enabled target llm_backend f segs =
        { branchEntered := false, backendInvoked := false, warned := true
          finalSegments := segs } ∧
      translationStage enabled target llm_backend f segs =
        translationStage enabled target llm_backend g segs) := by
  unfold translationStage
  by_cases he : enabled = true <;>
    by_cases ht : target = "" <;>
      by_cases hl : llm_backend = "groq" <;>
        simp [he, ht, hl]

/-- C2 witness: translator enabled with empty target language — the stage is
skipped with a warning, the prior segments survive, and two different
translation backends (one erasing everything) give the same outcome. -/
theorem translation_stage_gating_witness :
    ((true = true ∧ ("" : String) = "") ∨ (true = false ∧ ("" : String) ≠ "")) ∧
    translationStage true "" "groq" (fun _ _ => ([] : List ℕ)) [1, 2] =
      { branchEntered := false, backendInvoked := false, warned := true
        finalSegments := [1, 2] } ∧
    translationStage true "" "groq" (fun _ _ => ([] : List ℕ)) [1, 2] =
      translationStage true "" "groq" (fun s _ => s) [1, 2] := by
  have h := (translation_stage_gating true "" "groq" (fun _ _ => ([] : List ℕ))
    (fun s _ => s) [1, 2]).2 (Or.inl ⟨rfl, rfl⟩)
  exact ⟨Or.inl ⟨rfl, rfl⟩, h.1, h.2⟩

/-! ## Claim theorems: the separation gate -/

/-- C3 (the code evaluated at its failing access): `AudioConfig` declares
only `sample_rate` and `mono`, so the attribute read
`config.processing.audio.separation` performed unguarded at
src/pipeline/run.py line 77 raises `AttributeError` for every configuration,
before the try/except that was meant to make separation failure non-fatal. -/
theorem audioConfig_separation_attr_error :
    audioConfigGetattr "separation" = Except.error "AttributeError: separation" := rfl

end SubGen
